import Mathlib

/-!
# Verification of the `legit` branch-workflow orchestrator

A shallow embedding of `src/legit/cli.py` (the orchestration of the
`switch`, `sync`, `publish`, `unpublish` and `install` commands, the
command-alias lookup of `LegitGroup.get_command`, and the helper
`sort_with_similarity`), together with proofs about the embedding.

The `SCMRepo` backend (`scm.py`) is not part of the sources; its
primitives (`stash_it`, `unstash_it`, `unstash_index`,
`checkout_branch`, `smart_pull`, `push`, `fuzzy_match_branch`,
`repo_check`, `status_log`, branch listing) are modelled from the
spec's component contracts (Branch Resolver, Stash Guard, VCS Backend
Adapter, Status Reporter).  Backend failures (a failing checkout, a
stash-pop conflict, a merge conflict, a failing push) are decided by an
environment `Env` supplied to each run; the similarity-based fallback of
the Branch Resolver and the close-match primitive of
`sort_with_similarity` (Python's `difflib`, external to the repository)
are abstracted as function parameters constrained by their documented
contracts.
-/

namespace Legit

/-- A stash entry: the shelved uncommitted changes (abstracted as a `Nat`
content identifier) tagged with the `sync` flag the orchestrator passed to
`stash_it` (spec: separate bookkeeping for the switch-stash and the
sync-stash). Modelled from the spec: `scm.py` (Stash Guard) is absent. -/
structure StashEntry where
  sync : Bool
  content : Nat
  deriving DecidableEq, Repr

/-- The repository state the orchestrator manipulates: current branch,
local and remote-tracking branch names, whether a remote is configured,
the uncommitted working-tree changes (`none` = clean, matching
`repo.is_dirty()`), the stash stack (head = most recent), and whether the
working tree was left in a conflicted state. -/
structure GitState where
  currentBranch : String
  localBranches : List String
  remoteBranches : List String
  hasRemote : Bool
  changes : Option Nat
  stash : List StashEntry
  conflicted : Bool
  deriving DecidableEq, Repr

/-- Environment of one run: which backend operations fail, and the
similarity-based fallback of the Branch Resolver (`difflib`-backed in the
real code, external to the repository). -/
structure Env where
  fuzzy : String → List String → Option String
  checkoutFails : Bool
  popConflicts : Bool
  mergeConflicts : Bool
  pushFails : Bool
  syncPopConflicts : Bool
  deleteFails : Bool

/-- Outcome of a command run: success, recoverable user-input abort
(`raise click.Abort` on a message path), or fatal backend failure
(surfaced through `handle_abort`, which also raises `click.Abort`). -/
inductive Outcome where
  | ok
  | abort
  | fatal
  deriving DecidableEq, Repr

/-- Observable backend actions and prompts of a run, in order. -/
inductive Event where
  | stashPush (sync : Bool)
  | stashPop (sync : Bool)
  | checkout (branch : String)
  | fetchMerge
  | pushBranch (branch : String)
  | deleteRemote (branch : String)
  | displayBranches
  | msgAlreadyPublished
  deriving DecidableEq, Repr

/-- Python truthiness of an optional string (`if to_branch:` /
`if branch:` in `cli.py`): `None` and `""` are falsy. -/
def optTruthy : Option String → Bool
  | none => false
  | some t => t ≠ ""

/-- Modelled from the spec: `scm.stash_it(sync=...)` (Stash Guard) pushes
the uncommitted changes as a new stash entry tagged with the `sync` flag
and leaves the working tree clean; a no-op on a clean tree. -/
def stash_it (sync : Bool) (s : GitState) : GitState :=
  match s.changes with
  | some c => { s with changes := none, stash := ⟨sync, c⟩ :: s.stash }
  | none => s

/-- Modelled from the spec: `scm.unstash_index(sync=...)` reports whether
a stash entry with the given `sync` tag is owed (present on the stack). -/
def unstash_index (sync : Bool) (s : GitState) : Bool :=
  (s.stash.find? (fun e => e.sync == sync)).isSome

/-- Modelled from the spec: `scm.unstash_it(sync=...)` pops the most
recent stash entry carrying the given `sync` tag, restoring its content
to the working tree. -/
def unstash_it (sync : Bool) (s : GitState) : GitState :=
  match s.stash.find? (fun e => e.sync == sync) with
  | some e =>
      { s with changes := some e.content,
               stash := s.stash.eraseP (fun x => x.sync == sync) }
  | none => s

/-- Modelled from the spec: the Branch Resolver
(`scm.fuzzy_match_branch`). An exact match among the local and
remote-tracking branch names wins immediately; an empty query resolves to
`none`; otherwise the similarity-based fallback (`env.fuzzy`) decides. -/
def fuzzy_match_branch (env : Env) (s : GitState) (q : String) : Option String :=
  if q = "" then none
  else if q ∈ s.localBranches ++ s.remoteBranches then some q
  else env.fuzzy q (s.localBranches ++ s.remoteBranches)

/-- The body of `switch` (cli.py lines 81-88), entered with a concrete
target branch: stash if dirty, checkout (fatal if the backend fails it),
then pop the switch-stash if one is owed (fatal on a pop conflict, the
stash being preserved). Returns final state, outcome, event trace. -/
def switchRun (env : Env) (b : String) (s : GitState) :
    GitState × Outcome × List Event :=
  let dirty := s.changes.isSome
  let s1 := if dirty then stash_it false s else s
  let ev1 := if dirty then [Event.stashPush false] else []
  if env.checkoutFails then
    (s1, Outcome.fatal, ev1 ++ [Event.checkout b])
  else
    let s2 := { s1 with currentBranch := b }
    let ev2 := ev1 ++ [Event.checkout b]
    if unstash_index false s2 then
      if env.popConflicts then
        ({ s2 with conflicted := true }, Outcome.fatal, ev2 ++ [Event.stashPop false])
      else
        (unstash_it false s2, Outcome.ok, ev2 ++ [Event.stashPop false])
    else
      (s2, Outcome.ok, ev2)

/-- The full `switch` command (cli.py lines 70-88): with no branch
argument it prompts with the available branches and aborts. -/
def switchCmd (env : Env) (toBranch : Option String) (s : GitState) :
    GitState × Outcome × List Event :=
  match toBranch with
  | none => (s, Outcome.abort, [Event.displayBranches])
  | some b => switchRun env b s

/-- Branch resolution of `sync` (cli.py lines 108-121): with a truthy
explicit target, fuzzy-resolve it — a truthy result is used with
`is_external = True`, a falsy one aborts (`none` here); with no target,
the current branch is used with `is_external = False`. -/
def sync_resolution (env : Env) (s : GitState) (toBranch : Option String) :
    Option (String × Bool) :=
  if optTruthy toBranch then
    let b := fuzzy_match_branch env s (toBranch.getD "")
    if optTruthy b then some (b.getD "", true) else none
  else
    some (s.currentBranch, false)

/-- The `sync` command (cli.py lines 97-143): require a remote, resolve
the target, require it published, switch onto it first when external,
stash a dirty tree with the sync tag, smart-pull (fatal on a merge
conflict, the tree left conflicted), push, pop the sync-stash if owed,
and switch back to the original branch when external. -/
def syncRun (env : Env) (toBranch : Option String) (s : GitState) :
    GitState × Outcome × List Event :=
  if !s.hasRemote then (s, Outcome.abort, [])
  else
    match sync_resolution env s toBranch with
    | none => (s, Outcome.abort, [])
    | some (branch, isExternal) =>
      let originalBranch := s.currentBranch
      if branch ∈ s.remoteBranches then
        let (s1, o1, ev1) :=
          if isExternal then switchRun env branch s else (s, Outcome.ok, [])
        if o1 ≠ Outcome.ok then (s1, o1, ev1)
        else
          let dirty := s1.changes.isSome
          let s2 := if dirty then stash_it true s1 else s1
          let ev2 := ev1 ++ (if dirty then [Event.stashPush true] else [])
          if env.mergeConflicts then
            ({ s2 with conflicted := true }, Outcome.fatal, ev2 ++ [Event.fetchMerge])
          else
            let ev3 := ev2 ++ [Event.fetchMerge]
            if env.pushFails then
              (s2, Outcome.fatal, ev3 ++ [Event.pushBranch branch])
            else
              let ev4 := ev3 ++ [Event.pushBranch branch]
              let doPop := unstash_index true s2
              if doPop && env.syncPopConflicts then
                ({ s2 with conflicted := true }, Outcome.fatal,
                 ev4 ++ [Event.stashPop true])
              else
                let s3 := if doPop then unstash_it true s2 else s2
                let ev5 := ev4 ++ (if doPop then [Event.stashPop true] else [])
                if isExternal then
                  let (s4, o4, ev6) := switchRun env originalBranch s3
                  (s4, o4, ev5 ++ ev6)
                else (s3, Outcome.ok, ev5)
      else (s, Outcome.abort, [])

/-- The branch `publish` operates on (cli.py lines 157-167): the fuzzy
resolution of the argument when truthy, else the current branch — in the
fallback case the available branches are displayed first. Returns the
branch and the events of this phase. -/
def publish_target (env : Env) (toBranch : Option String) (s : GitState) :
    String × List Event :=
  let r := fuzzy_match_branch env s (toBranch.getD "")
  if optTruthy r then (r.getD "", [])
  else (s.currentBranch, [Event.displayBranches])

/-- The `publish` command (cli.py lines 151-177): require a remote,
resolve the target (falling back to the current branch), abort if the
branch is already published, otherwise push it upstream. -/
def publishRun (env : Env) (toBranch : Option String) (s : GitState) :
    GitState × Outcome × List Event :=
  if !s.hasRemote then (s, Outcome.abort, [])
  else
    let (branch, ev0) := publish_target env toBranch s
    if branch ∈ s.remoteBranches then
      (s, Outcome.abort, ev0 ++ [Event.msgAlreadyPublished])
    else if env.pushFails then
      (s, Outcome.fatal, ev0 ++ [Event.pushBranch branch])
    else
      ({ s with remoteBranches := branch :: s.remoteBranches }, Outcome.ok,
       ev0 ++ [Event.pushBranch branch])

/-- The `unpublish` command (cli.py lines 185-206): require a remote,
resolve the mandatory argument (prompting with the branch list and
aborting when resolution fails), abort if the branch is not published,
otherwise delete the remote-tracking branch (fatal if already gone). -/
def unpublishRun (env : Env) (publishedBranch : String) (s : GitState) :
    GitState × Outcome × List Event :=
  if !s.hasRemote then (s, Outcome.abort, [])
  else
    let r := fuzzy_match_branch env s publishedBranch
    if !optTruthy r then (s, Outcome.abort, [Event.displayBranches])
    else
      let branch := r.getD ""
      if branch ∉ s.remoteBranches then (s, Outcome.abort, [])
      else if env.deleteFails then
        (s, Outcome.fatal, [Event.deleteRemote branch])
      else
        ({ s with remoteBranches := s.remoteBranches.erase branch },
         Outcome.ok, [Event.deleteRemote branch])

/-- Modelled from the spec: `scm.status_log` (Status Reporter). In fake
mode it prints what would run and returns a no-op success without
invoking the action; otherwise it runs the action and propagates its
outcome. -/
def status_log (fake : Bool) (action : GitState → GitState × Outcome)
    (s : GitState) : GitState × Outcome :=
  if fake then (s, Outcome.ok) else action s

/-- Sets or replaces a global git alias, as
`git config --global --replace-all alias.<name> "<cmd>"` does on the
global configuration (modelled as an association list). -/
def setAlias (cfg : List (String × String)) (name cmd : String) :
    List (String × String) :=
  (cfg.filter (fun p => p.1 ≠ "alias." ++ name)) ++ [("alias." ++ name, cmd)]

/-- The `git config` command line `install` builds for one alias
(cli.py line 254). -/
def aliasSysCommand (a : String) : String :=
  "git config --global --replace-all alias." ++ a ++ " \x22!legit " ++ a ++ "\x22"

/-- One iteration of the confirmed installation loop of `install`
(cli.py lines 252-260): in fake mode echo the faked command and leave
the configuration untouched, otherwise run the `git config` command.
The accumulator carries the global configuration and the printed lines. -/
def installStep (fake : Bool) (acc : List (String × String) × List String)
    (a : String) : List (String × String) × List String :=
  if fake then (acc.1, acc.2 ++ ["Faked! >>> " ++ aliasSysCommand a])
  else (setAlias acc.1 a ("!legit " ++ a), acc.2)

/-- The confirmed installation loop of `install` (cli.py lines 251-262)
over the whole alias list. Returns the final global configuration and
the printed lines. -/
def installRun (fake : Bool) (aliases : List String)
    (cfg : List (String × String)) : List (String × String) × List String :=
  aliases.foldl (installStep fake) (cfg, [])

/-- The commands registered on the CLI group (cli.py: the `@cli.command`
declarations, in order of definition). -/
def registeredCommands : List String :=
  ["switch", "sync", "publish", "unpublish", "branches", "undo",
   "install", "settings", "help"]

/-- The alias table of `LegitGroup` (cli.py lines 30-36), as
`command_aliases.get(name, "")`: the five aliases map to their commands,
anything else to the empty string. -/
def command_aliases_get (n : String) : String :=
  if n = "pub" then "publish"
  else if n = "sw" then "switch"
  else if n = "sy" then "sync"
  else if n = "unp" then "unpublish"
  else if n = "un" then "undo"
  else ""

/-- `LegitGroup.get_command` (cli.py lines 42-47): look the name up among
the registered commands; on a miss, translate it through the alias table
(defaulting to `""`) and look that up. -/
def get_command (name : String) : Option String :=
  if name ∈ registeredCommands then some name
  else
    let a := command_aliases_get name
    if a ∈ registeredCommands then some a else none

/-- `sort_with_similarity`'s main loop (cli.py lines 331-340): walk the
snapshot of the keys; for each key still unconsumed, emit it, drop it,
then emit and drop its close matches among the remaining keys. The
close-match primitive (`difflib.get_close_matches`, external) is the
parameter `cm`; its contract is that it returns a duplicate-free
selection from the candidates it is given. -/
def sortLoop (cm : String → List String → List String) :
    List String → List String → List String
  | [], _ => []
  | k :: ks, left =>
    if k ∈ left then
      let left1 := left.erase k
      let closes := cm k left1
      k :: (closes ++ sortLoop cm ks (left1.filter (fun x => !(closes.contains x))))
    else
      sortLoop cm ks left

/-- `sort_with_similarity` (cli.py lines 324-341) with the identity key:
for distinct strings, `dict(zip(keys, iterable))` is the identity mapping
in input order, so the loop runs over the input snapshot with the input
itself as the pool of unconsumed elements. -/
def sort_with_similarity (cm : String → List String → List String)
    (l : List String) : List String :=
  sortLoop cm l l

/-! ### Concrete fixtures used by witnesses and counterexamples -/

/-- An environment in which every backend operation succeeds and the
similarity fallback never matches. -/
def envOk : Env :=
  { fuzzy := fun _ _ => none, checkoutFails := false, popConflicts := false,
    mergeConflicts := false, pushFails := false, syncPopConflicts := false,
    deleteFails := false }

/-- Like `envOk` but the checkout fails. -/
def envCheckoutFail : Env := { envOk with checkoutFails := true }

/-- Like `envOk` but the smart pull's merge reports a conflict. -/
def envMerge : Env := { envOk with mergeConflicts := true }

/-- A dirty repository on `main` with `main` and `dev` both published. -/
def sDirty : GitState :=
  { currentBranch := "main", localBranches := ["main", "dev"],
    remoteBranches := ["main", "dev"], hasRemote := true,
    changes := some 7, stash := [], conflicted := false }

/-- A clean repository on the unpublished local branch `feature`. -/
def sFeat : GitState :=
  { currentBranch := "feature", localBranches := ["feature"],
    remoteBranches := [], hasRemote := true,
    changes := none, stash := [], conflicted := false }

/-! ### Helper lemmas about the stash guard and the switch workflow -/

lemma stash_it_some {s : GitState} {c : Nat} (hc : s.changes = some c)
    (tag : Bool) :
    stash_it tag s = { s with changes := none, stash := ⟨tag, c⟩ :: s.stash } := by
  simp [stash_it, hc]

lemma unstash_index_cons {s : GitState} {c : Nat} {r : List StashEntry}
    {g : Bool} (h : s.stash = ⟨g, c⟩ :: r) :
    unstash_index g s = true := by
  simp [unstash_index, h, List.find?_cons_of_pos]

lemma unstash_it_cons {s : GitState} {c : Nat} {r : List StashEntry}
    {g : Bool} (h : s.stash = ⟨g, c⟩ :: r) :
    unstash_it g s = { s with changes := some c, stash := r } := by
  simp [unstash_it, h, List.find?_cons_of_pos, List.eraseP_cons_of_pos]

/-- With the backend succeeding at checkout and stash pop, a switch run
always succeeds. -/
lemma switchRun_ok (env : Env) (b : String) (s : GitState)
    (hcf : env.checkoutFails = false) (hpc : env.popConflicts = false) :
    (switchRun env b s).2.1 = Outcome.ok := by
  unfold switchRun
  simp only [hcf, hpc, Bool.false_eq_true, if_false]
  split <;> split <;> rfl

/-- A successful switch on a dirty repository restores the repository
exactly, moving only the branch pointer. -/
lemma switchRun_dirty_ok {e : Env} {b : String} {s : GitState} {c : Nat}
    (hc : s.changes = some c)
    (hok : (switchRun e b s).2.1 = Outcome.ok) :
    (switchRun e b s).1 = { s with currentBranch := b } := by
  have hd : s.changes.isSome = true := by rw [hc]; rfl
  unfold switchRun at hok ⊢
  simp only [hd, if_true, stash_it_some hc] at hok ⊢
  by_cases hcf : e.checkoutFails
  · simp [hcf] at hok
  · simp only [hcf, if_false] at hok ⊢
    rw [unstash_index_cons (c := c) (r := s.stash) (g := false) rfl] at hok ⊢
    by_cases hpc : e.popConflicts
    · simp [hpc] at hok
    · simp only [hpc, if_false, if_true]
      rw [unstash_it_cons (c := c) (r := s.stash) (g := false) rfl]
      simp [hc]

/-- Shape of a switch run's trace: an optional stash push (exactly when
the repository is dirty), then the checkout, then an optional stash pop;
a pop happens only when a switch-stash is owed, i.e. the repository was
dirty or a `sync = false` entry was already on the stack. -/
lemma switchRun_trace (env : Env) (b : String) (s : GitState) :
    ∃ popped : Bool,
      (switchRun env b s).2.2 =
        (if s.changes.isSome then [Event.stashPush false] else [])
          ++ Event.checkout b :: (if popped then [Event.stashPop false] else []) ∧
      (popped = true → s.changes.isSome = true ∨ ∃ e ∈ s.stash, e.sync = false) := by
  unfold switchRun
  by_cases hcf : env.checkoutFails
  · exact ⟨false, by simp [hcf], by simp⟩
  · simp only [hcf, if_false]
    by_cases hui : unstash_index false
        { (if s.changes.isSome then stash_it false s else s) with currentBranch := b }
    · refine ⟨true, by by_cases hpc : env.popConflicts <;> simp [hui, hpc], fun _ => ?_⟩
      by_cases hd : s.changes.isSome
      · exact Or.inl hd
      · right
        rw [Bool.not_eq_true] at hd
        simp only [hd, Bool.false_eq_true, if_false, unstash_index] at hui
        obtain ⟨e, he, hp⟩ := List.find?_isSome.mp hui
        exact ⟨e, he, by simpa using hp⟩
    · rw [Bool.not_eq_true] at hui
      exact ⟨false, by simp [hui], by simp⟩

/-- Every event of a switch run's trace is a switch-stash push, the
checkout of the target, or a switch-stash pop. -/
lemma switchRun_trace_events (env : Env) (b : String) (s : GitState)
    {e : Event} (he : e ∈ (switchRun env b s).2.2) :
    e = Event.stashPush false ∨ e = Event.checkout b ∨ e = Event.stashPop false := by
  obtain ⟨popped, htr, -⟩ := switchRun_trace env b s
  rw [htr] at he
  rcases List.mem_append.mp he with h | h
  · left
    rcases Bool.eq_false_or_eq_true s.changes.isSome with hd | hd <;>
      simp [hd] at h
    exact h
  · rcases List.mem_cons.mp h with h | h
    · exact Or.inr (Or.inl h)
    · right; right
      rcases Bool.eq_false_or_eq_true popped with hp | hp <;> simp [hp] at h
      exact h

/-- A successful sync on a dirty repository pops every stash entry it
pushed: the stash stack and the uncommitted changes end as they began. -/
lemma syncRun_dirty_ok_stash {env : Env} {t : Option String} {s : GitState}
    {c : Nat} (hc : s.changes = some c)
    (hok : (syncRun env t s).2.1 = Outcome.ok) :
    (syncRun env t s).1.stash = s.stash ∧
    (syncRun env t s).1.changes = some c := by
  unfold syncRun at hok ⊢
  by_cases hr : s.hasRemote
  · simp only [hr, Bool.not_true, Bool.false_eq_true, if_false] at hok ⊢
    rcases hres : sync_resolution env s t with - | ⟨b, ext⟩ <;>
      rw [hres] at hok
    · simp at hok
    · by_cases hpub : b ∈ s.remoteBranches
      swap
      · simp [hpub] at hok
      simp only [hpub, if_true] at hok ⊢
      cases ext with
      | false =>
        have hd : s.changes.isSome = true := by rw [hc]; rfl
        simp only [Bool.false_eq_true, if_false, ne_eq, not_true_eq_false,
          hd, if_true, stash_it_some hc] at hok ⊢
        by_cases hmc : env.mergeConflicts
        · simp [hmc] at hok
        simp only [hmc, Bool.false_eq_true, if_false] at hok ⊢
        by_cases hpf : env.pushFails
        · simp [hpf] at hok
        simp only [hpf, Bool.false_eq_true, if_false] at hok ⊢
        rw [unstash_index_cons (c := c) (r := s.stash) (g := true) rfl] at hok ⊢
        by_cases hsc : env.syncPopConflicts
        · simp [hsc] at hok
        simp only [hsc, Bool.and_false, Bool.false_eq_true, if_false, if_true] at hok ⊢
        rw [unstash_it_cons (c := c) (r := s.stash) (g := true) rfl]
        exact ⟨rfl, rfl⟩
      | true =>
        simp only [if_true] at hok ⊢
        rcases hsw : switchRun env b s with ⟨s1, o1, ev1⟩
        rw [hsw] at hok
        by_cases ho1 : o1 = Outcome.ok
        swap
        · simp [ho1] at hok
        subst ho1
        have hs1 : s1 = { s with currentBranch := b } := by
          have := switchRun_dirty_ok (e := env) (b := b) hc (by rw [hsw])
          rw [hsw] at this
          exact this
        have hc1 : s1.changes = some c := by rw [hs1]; exact hc
        have hst1 : s1.stash = s.stash := by rw [hs1]
        have hd1 : s1.changes.isSome = true := by rw [hc1]; rfl
        simp only [ne_eq, not_true_eq_false, Bool.false_eq_true, if_false,
          hd1, if_true, stash_it_some hc1, hst1] at hok ⊢
        by_cases hmc : env.mergeConflicts
        · simp [hmc] at hok
        simp only [hmc, Bool.false_eq_true, if_false] at hok ⊢
        by_cases hpf : env.pushFails
        · simp [hpf] at hok
        simp only [hpf, Bool.false_eq_true, if_false] at hok ⊢
        rw [unstash_index_cons (c := c) (r := s.stash) (g := true) rfl] at hok ⊢
        by_cases hsc : env.syncPopConflicts
        · simp [hsc] at hok
        simp only [hsc, Bool.and_false, Bool.false_eq_true, if_false, if_true] at hok ⊢
        rw [unstash_it_cons (c := c) (r := s.stash) (g := true) rfl] at hok ⊢
        rcases hsw2 : switchRun env s.currentBranch
            { s1 with changes := some c, stash := s.stash } with ⟨s4, o4, ev6⟩
        rw [hsw2] at hok
        simp only at hok
        have hs4 : s4 = { s1 with
            currentBranch := s.currentBranch,
            changes := some c, stash := s.stash } := by
          have := switchRun_dirty_ok (e := env) (b := s.currentBranch)
            (s := { s1 with changes := some c, stash := s.stash })
            (c := c) rfl (by rw [hsw2]; exact hok)
          rw [hsw2] at this
          exact this
        rw [hs4]
        exact ⟨rfl, rfl⟩
  · have : s.hasRemote = false := by revert hr; simp
    simp [this] at hok

lemma contains_iff_mem (l : List String) (x : String) :
    l.contains x = true ↔ x ∈ l := by
  simp [List.contains_iff_exists_mem_beq]

/-- The main loop of `sort_with_similarity` permutes the unconsumed pool
whenever the pool is a duplicate-free sublist of the remaining snapshot
and the close-match primitive returns duplicate-free selections from the
candidates handed to it. -/
lemma sortLoop_perm (cm : String → List String → List String)
    (hcm : ∀ k c, (cm k c).Nodup ∧ ∀ x ∈ cm k c, x ∈ c) :
    ∀ ks left : List String, ks.Nodup → left.Sublist ks →
      (sortLoop cm ks left).Perm left := by
  intro ks
  induction ks with
  | nil =>
    intro left _ hsub
    rw [List.sublist_nil.mp hsub]
    exact List.Perm.refl _
  | cons k ks ih =>
    intro left hnd hsub
    have hk_notin : k ∉ ks := (List.nodup_cons.mp hnd).1
    have hnd' : ks.Nodup := (List.nodup_cons.mp hnd).2
    by_cases hk : k ∈ left
    · obtain ⟨t, rfl, hts⟩ : ∃ t, left = k :: t ∧ t.Sublist ks := by
        cases hsub with
        | cons _ h => exact absurd (h.subset hk) hk_notin
        | cons₂ _ h => exact ⟨_, rfl, h⟩
      have htnd : t.Nodup := hts.nodup hnd'
      have hclnd : (cm k t).Nodup := (hcm k t).1
      have hclsub : ∀ x ∈ cm k t, x ∈ t := (hcm k t).2
      have hrest : (t.filter (fun x => !((cm k t).contains x))).Sublist t :=
        List.filter_sublist t
      have ihr := ih (t.filter (fun x => !((cm k t).contains x))) hnd'
        (hrest.trans hts)
      simp only [sortLoop, if_pos hk, List.erase_cons_head]
      refine List.Perm.cons k ?_
      have h1 : (cm k t).Perm (t.filter (fun x => (cm k t).contains x)) := by
        rw [List.perm_ext_iff_of_nodup hclnd (htnd.filter _)]
        intro a
        simp only [List.mem_filter, contains_iff_mem]
        exact ⟨fun ha => ⟨hclsub a ha, ha⟩, fun ha => ha.2⟩
      have h2 := List.Perm.append_left (cm k t) ihr
      have h3 := h1.append_right (t.filter (fun x => !((cm k t).contains x)))
      have h4 := List.filter_append_perm (fun x => (cm k t).contains x) t
      exact (h2.trans h3).trans h4
    · have hsub' : left.Sublist ks := by
        cases hsub with
        | cons _ h => exact h
        | cons₂ _ h => exact absurd (List.mem_cons_self _ _) hk
      simp only [sortLoop, if_neg hk]
      exact ih left hnd' hsub'

lemma publish_target_snd (env : Env) (t : Option String) (s : GitState) :
    (publish_target env t s).2 = [] ∨
    (publish_target env t s).2 = [Event.displayBranches] := by
  unfold publish_target
  by_cases h : optTruthy (fuzzy_match_branch env s (t.getD "")) <;> simp [h]

lemma installRun_fake_fold (aliases : List String)
    (cfg : List (String × String)) (out : List String) :
    aliases.foldl (installStep true) (cfg, out)
      = (cfg, out ++ aliases.map (fun a => "Faked! >>> " ++ aliasSysCommand a)) := by
  induction aliases generalizing out with
  | nil => simp
  | cons a as ih => simp [installStep, ih]

/-! ### Claims -/

/-- C1: for every dirty repository, a successful run of `switch(branch)`
leaves the working-tree content identical to what it was before the call
— the stash push performed at the start and the stash pop performed
after checkout are a content-preserving round trip. The working-tree
content the round trip carries is the uncommitted changes (`changes`),
and the stash stack also returns to its initial value. -/
theorem switch_dirty_success_preserves_content (env : Env) (b : String)
    (s : GitState) (hd : s.changes.isSome = true)
    (hok : (switchRun env b s).2.1 = Outcome.ok) :
    (switchRun env b s).1.changes = s.changes ∧
    (switchRun env b s).1.stash = s.stash := by
  obtain ⟨c, hc⟩ := Option.isSome_iff_exists.mp hd
  rw [switchRun_dirty_ok hc hok]
  exact ⟨rfl, rfl⟩

/-- Witness for C1 at a concrete dirty repository. -/
theorem switch_dirty_success_preserves_content_witness :
    sDirty.changes.isSome = true ∧
    (switchRun envOk "dev" sDirty).2.1 = Outcome.ok ∧
    ((switchRun envOk "dev" sDirty).1.changes = sDirty.changes ∧
     (switchRun envOk "dev" sDirty).1.stash = sDirty.stash) :=
  ⟨by decide, by decide,
   switch_dirty_success_preserves_content envOk "dev" sDirty (by decide) (by decide)⟩

/-- C2 counterexample: when the checkout fails, the `switch` run exits
fatally with the stash entry it pushed still on the stack — the trace
shows the run itself pushed it, the initial stack was empty, and the
final stack still holds the entry. So the core does leave a pushed stash
unpopped on an abort exit path, contradicting the claim. -/
theorem switch_failed_checkout_leaves_stash :
    sDirty.stash = [] ∧
    (switchRun envCheckoutFail "dev" sDirty).2.2
      = [Event.stashPush false, Event.checkout "dev"] ∧
    (switchRun envCheckoutFail "dev" sDirty).2.1 = Outcome.fatal ∧
    (switchRun envCheckoutFail "dev" sDirty).1.stash
      = [⟨false, 7⟩] := by decide

/-- C2 amended: on every successful exit of `switch` and `sync` from a
dirty repository, every stash entry the run pushed has been popped — the
stash stack ends exactly as it began. (On abort exits a pushed stash may
deliberately remain, preserving the user's data.) -/
theorem stash_balanced_on_successful_exit :
    (∀ (env : Env) (b : String) (s : GitState),
        s.changes.isSome = true → (switchRun env b s).2.1 = Outcome.ok →
        (switchRun env b s).1.stash = s.stash) ∧
    (∀ (env : Env) (t : Option String) (s : GitState),
        s.changes.isSome = true → (syncRun env t s).2.1 = Outcome.ok →
        (syncRun env t s).1.stash = s.stash) := by
  constructor
  · intro env b s hd hok
    obtain ⟨c, hc⟩ := Option.isSome_iff_exists.mp hd
    rw [switchRun_dirty_ok hc hok]
  · intro env t s hd hok
    obtain ⟨c, hc⟩ := Option.isSome_iff_exists.mp hd
    exact (syncRun_dirty_ok_stash hc hok).1

/-- Witness for the amended C2 at concrete successful runs. -/
theorem stash_balanced_on_successful_exit_witness :
    (switchRun envOk "dev" sDirty).1.stash = sDirty.stash ∧
    (syncRun envOk (some "dev") sDirty).1.stash = sDirty.stash :=
  ⟨stash_balanced_on_successful_exit.1 envOk "dev" sDirty (by decide) (by decide),
   stash_balanced_on_successful_exit.2 envOk (some "dev") sDirty (by decide) (by decide)⟩

/-- C3 counterexample: syncing with an explicit target equal to the
current branch still takes the external path — the resolution marks the
run external and the run checks the branch out twice (the initial switch
and the scheduled switch-back), contradicting the claimed equivalence
with "target differs from the current branch". -/
theorem sync_explicit_current_branch_is_external :
    sDirty.currentBranch = "main" ∧
    sync_resolution envOk sDirty (some "main") = some ("main", true) ∧
    (syncRun envOk (some "main") sDirty).2.2.count (Event.checkout "main")
      = 2 := by decide

/-- C3 amended: the external path of `sync` is taken iff a truthy
explicit target is given and branch resolution returns a truthy branch —
whether or not that branch equals the current branch; with no explicit
target, the current branch is synced non-externally. -/
theorem sync_external_iff_resolved_target (env : Env) (s : GitState)
    (t : Option String) :
    ((∃ b, sync_resolution env s t = some (b, true)) ↔
      optTruthy t = true ∧
      optTruthy (fuzzy_match_branch env s (t.getD "")) = true) ∧
    (optTruthy t = false →
      sync_resolution env s t = some (s.currentBranch, false)) := by
  unfold sync_resolution
  by_cases ht : optTruthy t
  · by_cases hb : optTruthy (fuzzy_match_branch env s (t.getD ""))
    · simp [ht, hb]
    · simp [ht, hb]
  · simp [ht]

/-- Witness for the amended C3 at a concrete resolved target. -/
theorem sync_external_iff_resolved_target_witness :
    ((∃ b, sync_resolution envOk sDirty (some "dev") = some (b, true)) ↔
      optTruthy (some "dev") = true ∧
      optTruthy (fuzzy_match_branch envOk sDirty ((some "dev").getD "")) = true) ∧
    (optTruthy (some "dev") = false →
      sync_resolution envOk sDirty (some "dev")
        = some (sDirty.currentBranch, false)) :=
  sync_external_iff_resolved_target envOk sDirty (some "dev")

/-- C4 counterexample: when resolution returns none, the workflows do
not uniformly prompt with the branch list and abort — `publish` falls
back to the current branch and completes successfully instead of
aborting, and `sync` aborts with an empty trace, so without displaying
the branch list. -/
theorem resolution_none_not_uniform :
    optTruthy (fuzzy_match_branch envOk sFeat "zzz") = false ∧
    (publishRun envOk (some "zzz") sFeat).2.1 = Outcome.ok ∧
    (syncRun envOk (some "zzz") sFeat).2.1 = Outcome.abort ∧
    (syncRun envOk (some "zzz") sFeat).2.2 = [] := by decide

/-- C4 amended: when branch resolution returns none, `unpublish` prompts
with the full branch list and aborts; `sync` aborts without displaying
the branch list; `publish` displays the branch list but falls back to
the current branch instead of aborting (aborting only if that fallback
is already published); `switch` performs no resolution and prompts with
the branch list and aborts exactly when no argument is given. -/
theorem resolution_none_behavior :
    (∀ (env : Env) (pb : String) (s : GitState),
        s.hasRemote = true →
        optTruthy (fuzzy_match_branch env s pb) = false →
        unpublishRun env pb s = (s, Outcome.abort, [Event.displayBranches])) ∧
    (∀ (env : Env) (t : Option String) (s : GitState),
        s.hasRemote = true → optTruthy t = true →
        optTruthy (fuzzy_match_branch env s (t.getD "")) = false →
        (syncRun env t s).2.1 = Outcome.abort ∧
        Event.displayBranches ∉ (syncRun env t s).2.2) ∧
    (∀ (env : Env) (t : Option String) (s : GitState),
        s.hasRemote = true →
        optTruthy (fuzzy_match_branch env s (t.getD "")) = false →
        Event.displayBranches ∈ (publishRun env t s).2.2 ∧
        (publish_target env t s).1 = s.currentBranch ∧
        ((publishRun env t s).2.1 = Outcome.abort ↔
          s.currentBranch ∈ s.remoteBranches)) ∧
    (∀ (env : Env) (s : GitState),
        switchCmd env none s = (s, Outcome.abort, [Event.displayBranches])) := by
  refine ⟨?_, ?_, ?_, fun env s => rfl⟩
  · intro env pb s hr hnone
    unfold unpublishRun
    simp [hr, hnone]
  · intro env t s hr ht hnone
    unfold syncRun sync_resolution
    simp [hr, ht, hnone]
  · intro env t s hr hnone
    have htgt : publish_target env t s = (s.currentBranch, [Event.displayBranches]) := by
      unfold publish_target
      simp [hnone]
    unfold publishRun
    rw [htgt]
    by_cases hm : s.currentBranch ∈ s.remoteBranches
    · simp [hr, hm]
    · by_cases hp : env.pushFails <;> simp [hr, hm, hp]

/-- Witness for the amended C4 at concrete failed resolutions. -/
theorem resolution_none_behavior_witness :
    unpublishRun envOk "zzz" sFeat
      = (sFeat, Outcome.abort, [Event.displayBranches]) ∧
    ((syncRun envOk (some "zzz") sFeat).2.1 = Outcome.abort ∧
      Event.displayBranches ∉ (syncRun envOk (some "zzz") sFeat).2.2) ∧
    (Event.displayBranches ∈ (publishRun envOk (some "zzz") sFeat).2.2 ∧
      (publish_target envOk (some "zzz") sFeat).1 = sFeat.currentBranch ∧
      ((publishRun envOk (some "zzz") sFeat).2.1 = Outcome.abort ↔
        sFeat.currentBranch ∈ sFeat.remoteBranches)) ∧
    switchCmd envOk none sFeat
      = (sFeat, Outcome.abort, [Event.displayBranches]) :=
  ⟨resolution_none_behavior.1 envOk "zzz" sFeat (by decide) (by decide),
   resolution_none_behavior.2.1 envOk (some "zzz") sFeat (by decide) (by decide)
     (by decide),
   resolution_none_behavior.2.2.1 envOk (some "zzz") sFeat (by decide) (by decide),
   resolution_none_behavior.2.2.2 envOk sFeat⟩

/-- C5: the switch workflow executes its steps in exactly this order — a
stash push exactly when the repository is dirty, then the checkout of
the target, then a stash pop only when a restore is owed (the repository
was dirty, or a switch-tagged entry was already on the stack); the push
always precedes the checkout and the pop always follows it. -/
theorem switch_executes_steps_in_order (env : Env) (b : String) (s : GitState) :
    ∃ popped : Bool,
      (switchRun env b s).2.2 =
        (if s.changes.isSome then [Event.stashPush false] else [])
          ++ Event.checkout b :: (if popped then [Event.stashPop false] else []) ∧
      (popped = true → s.changes.isSome = true ∨ ∃ e ∈ s.stash, e.sync = false) :=
  switchRun_trace env b s

/-- Witness for C5 at a concrete dirty repository. -/
theorem switch_executes_steps_in_order_witness :
    ∃ popped : Bool,
      (switchRun envOk "dev" sDirty).2.2 =
        (if sDirty.changes.isSome then [Event.stashPush false] else [])
          ++ Event.checkout "dev" ::
            (if popped then [Event.stashPop false] else []) ∧
      (popped = true →
        sDirty.changes.isSome = true ∨ ∃ e ∈ sDirty.stash, e.sync = false) :=
  switch_executes_steps_in_order envOk "dev" sDirty

/-- C6: when the smart pull's merge reports a conflict, the sync run is
fatal — the working tree is left conflicted, no push, no pop of the
sync-stash and no switch-back occur (the trace ends at the fetch/merge
step). -/
theorem sync_merge_conflict_is_fatal (env : Env) (t : Option String)
    (s : GitState) (b : String) (ext : Bool)
    (hr : s.hasRemote = true)
    (hres : sync_resolution env s t = some (b, ext))
    (hpub : b ∈ s.remoteBranches)
    (hcf : env.checkoutFails = false)
    (hpc : env.popConflicts = false)
    (hmc : env.mergeConflicts = true) :
    (syncRun env t s).2.1 = Outcome.fatal ∧
    (syncRun env t s).1.conflicted = true ∧
    (∀ b', Event.pushBranch b' ∉ (syncRun env t s).2.2) ∧
    Event.stashPop true ∉ (syncRun env t s).2.2 ∧
    (syncRun env t s).2.2.getLast? = some Event.fetchMerge := by
  unfold syncRun
  simp only [hr, Bool.not_true, Bool.false_eq_true, if_false]
  rw [hres]
  simp only [hpub, if_true]
  cases ext with
  | false =>
    simp only [Bool.false_eq_true, if_false, ne_eq, not_true_eq_false, hmc, if_true]
    refine ⟨by trivial, by trivial, ?_, ?_, ?_⟩
    · intro b'
      rcases Bool.eq_false_or_eq_true s.changes.isSome with hd | hd <;> simp [hd]
    · rcases Bool.eq_false_or_eq_true s.changes.isSome with hd | hd <;> simp [hd]
    · rw [List.getLast?_concat]
  | true =>
    simp only [if_true]
    rcases hsw : switchRun env b s with ⟨s1, o1, ev1⟩
    have ho1 : o1 = Outcome.ok := by
      have := switchRun_ok env b s hcf hpc
      rw [hsw] at this
      exact this
    subst ho1
    have hev1 : ∀ e ∈ ev1, e = Event.stashPush false ∨ e = Event.checkout b ∨
        e = Event.stashPop false := by
      intro e he
      exact switchRun_trace_events env b s (by rw [hsw]; exact he)
    simp only [ne_eq, not_true_eq_false, Bool.false_eq_true, if_false, hmc, if_true]
    refine ⟨by trivial, by trivial, ?_, ?_, ?_⟩
    · intro b' hmem
      rw [List.append_assoc] at hmem
      rcases List.mem_append.mp hmem with h | h
      · rcases hev1 _ h with h' | h' | h' <;> simp at h'
      · rcases Bool.eq_false_or_eq_true s1.changes.isSome with hd | hd <;>
          simp [hd] at h
    · intro hmem
      rw [List.append_assoc] at hmem
      rcases List.mem_append.mp hmem with h | h
      · rcases hev1 _ h with h' | h' | h' <;> simp at h'
      · rcases Bool.eq_false_or_eq_true s1.changes.isSome with hd | hd <;>
          simp [hd] at h
    · rw [List.getLast?_concat]

/-- Witness for C6: a dirty repository synced onto `dev` while the merge
conflicts. -/
theorem sync_merge_conflict_is_fatal_witness :
    (syncRun envMerge (some "dev") sDirty).2.1 = Outcome.fatal ∧
    (syncRun envMerge (some "dev") sDirty).1.conflicted = true ∧
    (∀ b', Event.pushBranch b' ∉ (syncRun envMerge (some "dev") sDirty).2.2) ∧
    Event.stashPop true ∉ (syncRun envMerge (some "dev") sDirty).2.2 ∧
    (syncRun envMerge (some "dev") sDirty).2.2.getLast?
      = some Event.fetchMerge :=
  sync_merge_conflict_is_fatal envMerge (some "dev") sDirty "dev" true
    (by decide) (by decide) (by decide) (by decide) (by decide) (by decide)

/-- C7: publishing a branch that already has a remote-tracking
counterpart aborts recoverably with the "already published" message and
performs no mutation; in particular a second `publish(branch)` right
after a successful one aborts without pushing anything. -/
theorem publish_published_aborts_no_mutation :
    (∀ (env : Env) (t : Option String) (s : GitState),
        s.hasRemote = true →
        (publish_target env t s).1 ∈ s.remoteBranches →
        (publishRun env t s).1 = s ∧
        (publishRun env t s).2.1 = Outcome.abort ∧
        Event.msgAlreadyPublished ∈ (publishRun env t s).2.2 ∧
        ∀ b', Event.pushBranch b' ∉ (publishRun env t s).2.2) ∧
    (∀ (env : Env) (b : String) (s : GitState),
        s.hasRemote = true → b ∈ s.localBranches → b ≠ "" →
        b ∉ s.remoteBranches → env.pushFails = false →
        (publishRun env (some b) s).2.1 = Outcome.ok ∧
        publishRun env (some b) ((publishRun env (some b) s).1)
          = ((publishRun env (some b) s).1, Outcome.abort,
             [Event.msgAlreadyPublished])) := by
  constructor
  · intro env t s hr hmem
    unfold publishRun
    simp only [hr, Bool.not_true, Bool.false_eq_true, if_false]
    rcases hpt : publish_target env t s with ⟨branch, ev0⟩
    rw [hpt] at hmem
    simp only at hmem
    simp only [hmem, if_true]
    refine ⟨by trivial, by trivial, by simp, ?_⟩
    intro b' hb'
    rcases List.mem_append.mp hb' with h | h
    · have := publish_target_snd env t s
      rw [hpt] at this
      simp only at this
      rcases this with h0 | h0 <;> rw [h0] at h <;> simp at h
    · simp at h
  · intro env b s hr hb hne hnp hpf
    have hres : fuzzy_match_branch env s b = some b := by
      unfold fuzzy_match_branch
      rw [if_neg hne, if_pos (List.mem_append.mpr (Or.inl hb))]
    have htgt : publish_target env (some b) s = (b, []) := by
      unfold publish_target
      simp [hres, optTruthy, hne]
    have h1 : publishRun env (some b) s
        = ({ s with remoteBranches := b :: s.remoteBranches }, Outcome.ok,
           [Event.pushBranch b]) := by
      unfold publishRun
      rw [htgt]
      simp [hr, hnp, hpf]
    rw [h1]
    refine ⟨rfl, ?_⟩
    have hres1 : fuzzy_match_branch env
        { s with remoteBranches := b :: s.remoteBranches } b = some b := by
      unfold fuzzy_match_branch
      rw [if_neg hne, if_pos (List.mem_append.mpr (Or.inl hb))]
    have htgt1 : publish_target env (some b)
        { s with remoteBranches := b :: s.remoteBranches } = (b, []) := by
      unfold publish_target
      simp [hres1, optTruthy, hne]
    unfold publishRun
    rw [htgt1]
    simp [hr]

/-- Witness for C7: publishing `feature` twice from `sFeat`. -/
theorem publish_published_aborts_no_mutation_witness :
    (publishRun envOk (some "feature") sFeat).2.1 = Outcome.ok ∧
    publishRun envOk (some "feature") ((publishRun envOk (some "feature") sFeat).1)
      = ((publishRun envOk (some "feature") sFeat).1, Outcome.abort,
         [Event.msgAlreadyPublished]) :=
  publish_published_aborts_no_mutation.2 envOk "feature" sFeat
    (by decide) (by decide) (by decide) (by decide) (by decide)

/-- C8: in fake mode every destructive step prints the command that
would run and completes as a no-op success without invoking the
underlying action — a status-logged workflow step leaves the repository
untouched and reports success, and the confirmed `install` loop leaves
the global configuration untouched while printing each faked `git
config` command. -/
theorem fake_mode_is_noop :
    (∀ (action : GitState → GitState × Outcome) (s : GitState),
        status_log true action s = (s, Outcome.ok)) ∧
    (∀ (aliases : List String) (cfg : List (String × String)),
        (installRun true aliases cfg).1 = cfg ∧
        (installRun true aliases cfg).2
          = aliases.map (fun a => "Faked! >>> " ++ aliasSysCommand a)) := by
  refine ⟨fun action s => rfl, fun aliases cfg => ?_⟩
  unfold installRun
  rw [installRun_fake_fold]
  exact ⟨rfl, rfl⟩

/-- Witness for C8 on a concrete action and alias list. -/
theorem fake_mode_is_noop_witness :
    status_log true (fun s => (stash_it false s, Outcome.ok)) sDirty
      = (sDirty, Outcome.ok) ∧
    (installRun true ["switch", "sync"] [("user.name", "u")]).1
      = [("user.name", "u")] :=
  ⟨fake_mode_is_noop.1 (fun s => (stash_it false s, Outcome.ok)) sDirty,
   (fake_mode_is_noop.2 ["switch", "sync"] [("user.name", "u")]).1⟩

/-- C9: for every input list of distinct strings, `sort_with_similarity`
returns a permutation of the input, for any close-match primitive that
returns a duplicate-free selection from the candidates it is handed (the
contract of `difflib.get_close_matches`). -/
theorem sort_with_similarity_is_permutation
    (cm : String → List String → List String)
    (hcm : ∀ k c, (cm k c).Nodup ∧ ∀ x ∈ cm k c, x ∈ c)
    (l : List String) (hl : l.Nodup) :
    (sort_with_similarity cm l).Perm l :=
  sortLoop_perm cm hcm l l hl (List.Sublist.refl l)

/-- Witness for C9 with a concrete close-match primitive and input. -/
theorem sort_with_similarity_is_permutation_witness :
    (sort_with_similarity (fun _ _ => []) ["publish", "push"]).Perm
      ["publish", "push"] :=
  sort_with_similarity_is_permutation (fun _ _ => []) (by simp)
    ["publish", "push"] (by decide)

/-- C10: command lookup resolves the five aliases to their commands and
returns no command for any name that is neither a registered command nor
one of the five aliases. -/
theorem get_command_resolves_aliases :
    get_command "pub" = some "publish" ∧
    get_command "sw" = some "switch" ∧
    get_command "sy" = some "sync" ∧
    get_command "unp" = some "unpublish" ∧
    get_command "un" = some "undo" ∧
    ∀ n, n ∉ registeredCommands →
      n ∉ (["pub", "sw", "sy", "unp", "un"] : List String) →
      get_command n = none := by
  refine ⟨by decide, by decide, by decide, by decide, by decide, ?_⟩
  intro n h1 h2
  simp only [List.mem_cons, List.not_mem_nil, or_false, not_or] at h2
  obtain ⟨e1, e2, e3, e4, e5⟩ := h2
  unfold get_command command_aliases_get
  rw [if_neg h1, if_neg e1, if_neg e2, if_neg e3, if_neg e4, if_neg e5,
    if_neg (by decide : ¬(("" : String) ∈ registeredCommands))]

/-- Witness for C10 at a name that is neither registered nor an alias. -/
theorem get_command_resolves_aliases_witness :
    get_command "zzz" = none :=
  get_command_resolves_aliases.2.2.2.2.2 "zzz" (by decide) (by decide)

end Legit
